import Mathlib

/-!
Verification development for the conversational agent repository
(Langgraph_Agent.py, RAG_Model_Mogodb.py, server.py).

Shallow embedding conventions:
* Message content strings are modelled as token lists (`Content`), with the
  fixed system-instruction text represented by the atomic token `Tok.instr`;
  ordinary text is `Tok.txt s`.  Python string concatenation becomes list
  append, so occurrences of the instruction in a composed prompt are
  countable.
* Fallible external calls (the LLM, HTTP, MongoDB, websocket sends) are
  passed in as explicit `Except`/`Bool` oracles; `try/except` blocks become
  `match` on the oracle result.
* Python dictionaries become association lists with first-match lookup and
  in-place update; `list.remove` becomes `List.erase` (first occurrence).
-/

namespace AgentSpec

/-- A content token: either the (atomic) system-instruction text or a piece of
ordinary text. -/
inductive Tok
  | instr
  | txt (s : String)
deriving DecidableEq

/-- Message content: Python string modelled as a list of tokens. -/
abbrev Content := List Tok

/-- Number of occurrences of the system-instruction token in a content. -/
def instrCount : Content → Nat
  | [] => 0
  | Tok.instr :: rest => instrCount rest + 1
  | Tok.txt _ :: rest => instrCount rest

/-- Conversation message: HumanMessage / AIMessage (with tool_calls) /
ToolMessage / SystemMessage from langchain_core.messages. -/
inductive Msg
  | human (content : Content)
  | ai (content : Content) (toolCalls : List String)
  | tool (content : Content)
  | system (content : Content)
deriving DecidableEq

/-- The content carried by a message. -/
def Msg.content : Msg → Content
  | .human c => c
  | .ai c _ => c
  | .tool c => c
  | .system c => c

/-- Role test: user message. -/
def Msg.isHuman : Msg → Bool
  | .human _ => true
  | _ => false

/-- Role test: system message. -/
def Msg.isSystem : Msg → Bool
  | .system _ => true
  | _ => false

/-- Role test: assistant message. -/
def Msg.isAssistant : Msg → Bool
  | .ai _ _ => true
  | _ => false

/-- The `tool_calls` attribute: only AI messages carry it (the
`hasattr(msg, 'tool_calls')` check in the source is false for the other
roles, which the code treats the same as an empty list). -/
def toolCallsOf : Msg → List String
  | .ai _ tc => tc
  | _ => []

/-- Occurrences of the instruction token in one message. -/
def msgInstr (m : Msg) : Nat := instrCount m.content

/-- Total occurrences of the instruction token over a message list. -/
def totalInstr : List Msg → Nat
  | [] => 0
  | m :: rest => msgInstr m + totalInstr rest

/-- Langgraph_Agent.agent_node, line 164: the combined content
`f"{SYSTEM_INSTRUCTION}\n\nUser: {msg.content}"` at token level. -/
def injectInstr (c : Content) : Content :=
  Tok.instr :: Tok.txt "\n\nUser: " :: c

/-- Langgraph_Agent.agent_node, lines 157-168: the message loop composing the
prompt.  System messages are skipped; the first user message (while the
`system_added` flag is false) receives the instruction; everything else is
passed through unchanged. -/
def promptGo : List Msg → Bool → List Msg
  | [], _ => []
  | .system _ :: rest, added => promptGo rest added
  | .human c :: rest, added =>
      if added then .human c :: promptGo rest true
      else .human (injectInstr c) :: promptGo rest true
  | .ai c tc :: rest, added => .ai c tc :: promptGo rest added
  | .tool c :: rest, added => .tool c :: promptGo rest added

/-- Langgraph_Agent.agent_node, lines 156-171: prompt composition including
the `if not prompt_messages` fallback `HumanMessage(SYSTEM_INSTRUCTION +
"\n\nUser: Hello")`. -/
def composePrompt (msgs : List Msg) : List Msg :=
  match promptGo msgs false with
  | [] => [.human (injectInstr [Tok.txt "Hello"])]
  | ps => ps

/-- Langgraph_Agent.agent_node, lines 173-184: the model invocation is wrapped
in try/except; the oracle result is either a response (content, tool_calls)
or the text of a raised exception, which becomes an AIMessage with the
`"I encountered an error: "` prefix and no tool calls.  The node returns the
one-message list appended to the state by `add_messages`. -/
def agent_node (r : Except String (Content × List String)) : List Msg :=
  match r with
  | .ok (c, tc) => [Msg.ai c tc]
  | .error e => [Msg.ai [Tok.txt ("I encountered an error: " ++ e)] []]

/-- Langgraph_Agent.should_continue, lines 186-199: empty state or a last
message without tool calls ends the run; a last message with tool calls
routes to the tools node. -/
def should_continue (messages : List Msg) : String :=
  match messages.getLast? with
  | none => "__end__"
  | some last => if toolCallsOf last ≠ [] then "tools" else "__end__"

/-- Tool calls of the last message of a state (empty for an empty state). -/
def lastToolCalls (messages : List Msg) : List String :=
  match messages.getLast? with
  | none => []
  | some last => toolCallsOf last

/-- Langgraph_Agent.build_graph, lines 203-213: START → agent; agent →
(tools | END) via should_continue; tools → agent.  `oracle` is the model
client invoked by agent_node on the current state, `toolExec` is the ToolNode
turning the requested calls into tool messages.  `fuel` counts permitted
agent-node invocations; `none` means the loop was still running when the
fuel ran out — the graph itself never stops it. -/
def runGraph (oracle : List Msg → Except String (Content × List String))
    (toolExec : List String → List Msg) : Nat → List Msg → Option (List Msg)
  | 0, _ => none
  | fuel + 1, msgs =>
      let msgs1 := msgs ++ agent_node (oracle msgs)
      if should_continue msgs1 = "tools" then
        runGraph oracle toolExec fuel (msgs1 ++ toolExec (lastToolCalls msgs1))
      else some msgs1

/-- A model client whose every response requests a tool call. -/
def alwaysToolOracle : List Msg → Except String (Content × List String) :=
  fun _ => .ok ([Tok.txt "calling tool"], ["get_weather"])

/-- A ToolNode stub: one tool message per requested call. -/
def stubToolExec : List String → List Msg :=
  fun names => names.map (fun n => Msg.tool [Tok.txt n])

/-- The `"main"` object of the weather JSON: `temp` and `humidity` fields,
each possibly absent.  Numbers are modelled by their rendered text, which is
all the source ever does with them (f-string interpolation). -/
structure WMain where
  temp : Option String
  humidity : Option String
deriving DecidableEq

/-- The parsed weather JSON as accessed by get_weather: `weather` is an
optional list of objects each with an optional `description`; `wind` an
optional object with an optional `speed`; `message` the field read by
`data.get('message', 'Unknown error')`. -/
structure WJson where
  weather : Option (List (Option String))
  main : Option WMain
  wind : Option (Option String)
  message : Option String
deriving DecidableEq

/-- Access `data["weather"][0]["description"]`; a missing key or empty list
raises (becomes `.error`). -/
def descOf (j : WJson) : Except String String :=
  match j.weather with
  | none => .error "KeyError: weather"
  | some objs =>
      match objs.head? with
      | none => .error "IndexError: list index out of range"
      | some none => .error "KeyError: description"
      | some (some d) => .ok d

/-- Access `data["main"]["temp"]`. -/
def tempOf (j : WJson) : Except String String :=
  match j.main with
  | none => .error "KeyError: main"
  | some m =>
      match m.temp with
      | none => .error "KeyError: temp"
      | some t => .ok t

/-- Access `data["main"]["humidity"]`. -/
def humidityOf (j : WJson) : Except String String :=
  match j.main with
  | none => .error "KeyError: main"
  | some m =>
      match m.humidity with
      | none => .error "KeyError: humidity"
      | some h => .ok h

/-- Access `data["wind"]["speed"]`. -/
def windOf (j : WJson) : Except String String :=
  match j.wind with
  | none => .error "KeyError: wind"
  | some none => .error "KeyError: speed"
  | some (some w) => .ok w

/-- Langgraph_Agent.get_weather, lines 106-109: the four field accesses in
source order; the first raising access wins. -/
def weatherFields (j : WJson) : Except String (String × String × String × String) :=
  match descOf j with
  | .error e => .error e
  | .ok d =>
      match tempOf j with
      | .error e => .error e
      | .ok t =>
          match humidityOf j with
          | .error e => .error e
          | .ok h =>
              match windOf j with
              | .error e => .error e
              | .ok w => .ok (d, t, h, w)

/-- Langgraph_Agent.get_weather, line 110: the success format string. -/
def weatherReport (city d t h w : String) : String :=
  "The weather in " ++ city ++ " is currently " ++ d ++
    " with a temperature of " ++ t ++ "°C, humidity of " ++ h ++
    "%, and wind speed of " ++ w ++ " m/s."

/-- Langgraph_Agent.get_weather, lines 82-115.  `apiKey` is the
OPENWEATHERMAP_API_KEY environment lookup (`none` for unset; the code's
`if not api_key` also treats an empty string as missing).  `net` is the
requests.get + response.json() oracle: a transport fault, or a status code
together with either a parse fault or the parsed JSON.  Every `raise` inside
the try block lands in the `"Exception occurred: "` branch. -/
def get_weather (apiKey : Option String) (city : String)
    (net : Except String (Nat × Except String WJson)) : String :=
  if apiKey.getD "" = "" then "Error: OpenWeatherMap API key not found."
  else
    match net with
    | .error e => "Exception occurred: " ++ e
    | .ok (statusCode, parsed) =>
        match parsed with
        | .error e => "Exception occurred: " ++ e
        | .ok data =>
            if statusCode = 200 then
              match weatherFields data with
              | .ok (d, t, h, w) => weatherReport city d t h w
              | .error e => "Exception occurred: " ++ e
            else "Error fetching weather: " ++ data.message.getD "Unknown error"

/-- RAG_Model_Mogodb.get_query_results, lines 82-85: evaluate `doc["text"]`
for each result document (`none` = the key is absent and a KeyError is
raised). -/
def collectTexts : List (Option String) → Except String (List String)
  | [] => .ok []
  | none :: _ => .error "KeyError: text"
  | some t :: rest =>
      match collectTexts rest with
      | .error e => .error e
      | .ok ts => .ok (t :: ts)

/-- RAG_Model_Mogodb.get_query_results, lines 53-86.  `collInit` is whether
the module-level MongoDB collection was initialised (if not, the function
returns the empty string).  `embed` is the get_embedding call (may raise),
`docs` the aggregate call (may raise), each document reduced to its optional
`text` field.  The result is `" ".join` of the texts. -/
def get_query_results (collInit : Bool) (embed : Except String Unit)
    (docs : Except String (List (Option String))) : Except String String :=
  if !collInit then .ok ""
  else
    match embed with
    | .error e => .error e
    | .ok _ =>
        match docs with
        | .error e => .error e
        | .ok ds =>
            match collectTexts ds with
            | .error e => .error e
            | .ok ts => .ok (String.intercalate " " ts)

/-- The literal returned when the joined retrieval result is falsy. -/
def noInfoMsg : String := "No relevant information found in the knowledge base."

/-- Langgraph_Agent.retrieve_knowledge, lines 118-130: call the retriever
inside try/except; an empty (falsy) result string becomes the no-information
literal, a raised exception becomes the `"Error retrieving knowledge: "`
string. -/
def retrieve_knowledge (collInit : Bool) (embed : Except String Unit)
    (docs : Except String (List (Option String))) : String :=
  match get_query_results collInit embed docs with
  | .error e => "Error retrieving knowledge: " ++ e
  | .ok result => if result = "" then noInfoMsg else result

/-- One item of a list-shaped response content: a dict with a `text` key, a
dict without one (carrying its repr), a bare string, or any other value
(carrying its repr). -/
inductive RItem
  | dictT (t : String)
  | dictOther (rep : String)
  | strI (s : String)
  | other (rep : String)
deriving DecidableEq

/-- Python `repr` of one item, used by the `str(content)` fallback. -/
def RItem.pyRepr : RItem → String
  | .dictT t => "\x7b\x27text\x27: \x27" ++ t ++ "\x27\x7d"
  | .dictOther r => r
  | .strI s => "\x27" ++ s ++ "\x27"
  | .other r => r

/-- A response content value: a plain string, a list of parts, or any other
value (carrying its str()). -/
inductive RContent
  | str (s : String)
  | list (items : List RItem)
  | other (rep : String)
deriving DecidableEq

/-- Python `str(content)` for a response content value. -/
def pyStr : RContent → String
  | .str s => s
  | .list items => "[" ++ String.intercalate ", " (items.map RItem.pyRepr) ++ "]"
  | .other r => r

/-- Langgraph_Agent.extract_text_from_response, lines 231-236: the
`text_parts` collected from a list content — dict items with a `text` key
contribute that value, bare string items contribute themselves, everything
else is skipped, order preserved. -/
def textParts (items : List RItem) : List String :=
  items.filterMap fun it =>
    match it with
    | .dictT t => some t
    | .strI s => some s
    | _ => none

/-- Langgraph_Agent.extract_text_from_response, lines 226-239. -/
def extract_text_from_response : RContent → String
  | .str s => s
  | .list items =>
      let parts := textParts items
      if parts = [] then pyStr (.list items)
      else String.intercalate " " parts
  | .other r => pyStr (.other r)

/-- Python truthiness guard `not user_input or not user_input.strip()`:
the input is empty, or stripping leading and trailing whitespace leaves
nothing — equivalently, every character is whitespace. -/
def isBlank (s : String) : Bool := s.toList.all Char.isWhitespace

/-- The fixed reply for blank input (Langgraph_Agent lines 253 and 287). -/
def invalidInputMsg : String := "Please provide a valid question or request."

/-- The fallback when the stream produced no final text (lines 270, 309). -/
def noResponseMsg : String := "I couldn\x27t generate a response. Please try again."

/-- The text of a content, with the instruction token rendering atomically;
stands in for extract_text_from_response at token level (model responses
contain only text tokens). -/
def contentText (c : Content) : String :=
  String.join (c.map fun t =>
    match t with
    | Tok.instr => ""
    | Tok.txt s => s)

/-- One event of `app.stream`: an update from the agent node (carrying its
response message) or from the tools node (carrying the tool messages). -/
inductive StreamEvent
  | agent (msg : Msg)
  | tools (msgs : List Msg)

/-- ConversationManager.send_message, lines 297-307: the stream loop.  Agent
messages are appended (and become the final response) only when they carry
no tool calls (a message without the tool_calls attribute counts as having
none); tool messages are always appended. -/
def processEvents : List Msg → String → List StreamEvent → String × List Msg
  | h, resp, [] => (resp, h)
  | h, resp, .agent m :: rest =>
      if toolCallsOf m = [] then
        processEvents (h ++ [m]) (contentText m.content) rest
      else processEvents h resp rest
  | h, resp, .tools ms :: rest => processEvents (h ++ ms) resp rest

/-- Langgraph_Agent.ConversationManager state: thread id and message
history (lines 280-282). -/
structure ConvMgr where
  threadId : String
  messages : List Msg
deriving DecidableEq

/-- ConversationManager.send_message, lines 284-312.  `events` is the
stream produced by the graph run; `fault` is an exception raised during the
run (after the user message was appended), landing in the except branch. -/
def send_message (mgr : ConvMgr) (input : String) (events : List StreamEvent)
    (fault : Option String) : String × ConvMgr :=
  if isBlank input then (invalidInputMsg, mgr)
  else
    let r := processEvents (mgr.messages ++ [Msg.human [Tok.txt input]]) "" events
    let mgr1 : ConvMgr := ConvMgr.mk mgr.threadId r.2
    match fault with
    | some e => ("An error occurred while processing your query: " ++ e, mgr1)
    | none => (if r.1 = "" then noResponseMsg else r.1, mgr1)

/-- ConversationManager.clear_history, lines 314-316. -/
def clear_history (mgr : ConvMgr) : ConvMgr := ConvMgr.mk mgr.threadId []

/-- ConversationManager.get_message_count, lines 322-324. -/
def get_message_count (mgr : ConvMgr) : Nat := mgr.messages.length

/-- Langgraph_Agent.process_query, lines 242-273: the stateless variant with
the same blank-input guard and stream loop over a fresh one-message input. -/
def process_query (input : String) (events : List StreamEvent)
    (fault : Option String) : String :=
  if isBlank input then invalidInputMsg
  else
    let r := processEvents [Msg.human [Tok.txt input]] "" events
    match fault with
    | some e => "An error occurred while processing your query: " ++ e
    | none => if r.1 = "" then noResponseMsg else r.1

/-- A per-client session of the server: the ConversationManager held in
`conversation_managers[client_id]` (server.py line 55), reduced to its
state. -/
structure Session where
  threadId : String
  history : List Msg
deriving DecidableEq

/-- `ConversationManager(thread_id=client_id)`: fresh empty session. -/
def freshSession (id : String) : Session := Session.mk id []

/-- Python dict lookup on the id → session registry. -/
def dictGet : List (String × Session) → String → Option Session
  | [], _ => none
  | (k, v) :: rest, id => if k = id then some v else dictGet rest id

/-- Python dict assignment `d[id] = v`: replace the binding if present,
append otherwise. -/
def dictSet : List (String × Session) → String → Session → List (String × Session)
  | [], id, v => [(id, v)]
  | (k, w) :: rest, id, v =>
      if k = id then (id, v) :: rest else (k, w) :: dictSet rest id v

/-- server.ConnectionManager.connect, lines 57-60 (registry part):
`self.conversation_managers[client_id] = ConversationManager(thread_id=client_id)`
— unconditional assignment of a fresh session. -/
def connect (reg : List (String × Session)) (id : String) : List (String × Session) :=
  dictSet reg id (freshSession id)

/-- server.websocket_endpoint, lines 164-168: look the session up and create
it only when absent ("getOrCreate").  Returns the session used and the
updated registry. -/
def getOrCreate (reg : List (String × Session)) (id : String) :
    Session × List (String × Session) :=
  match dictGet reg id with
  | some s => (s, reg)
  | none => (freshSession id, dictSet reg id (freshSession id))

/-- Python `if connection in lst: lst.remove(connection)` (server.py lines
87-88 and 101-102): remove the first occurrence when present. -/
def pyRemove (l : List Nat) (c : Nat) : List Nat :=
  if c ∈ l then l.erase c else l

/-- The send loop of broadcast_log / broadcast_typing (server.py lines 82-88
and 97-102) with CPython `for` semantics over the mutating list: an internal
index advances every iteration and the loop stops when it reaches the
current length, so removing the current element shifts its successor into
the already-visited position.  `ok c` states whether `send_text` to
connection `c` succeeds; a failing connection is removed from the list.
Returns the final connection list and the list of connections a send was
attempted to, in order.  `fuel` starts at the initial length, which bounds
the number of iterations since the index grows and the length never does. -/
def sendLoopFrom (ok : Nat → Bool) : Nat → Nat → List Nat → List Nat → List Nat × List Nat
  | 0, _, conns, attempted => (conns, attempted)
  | fuel + 1, i, conns, attempted =>
      if i < conns.length then
        let c := conns.getD i 0
        if ok c then sendLoopFrom ok fuel (i + 1) conns (attempted ++ [c])
        else sendLoopFrom ok fuel (i + 1) (pyRemove conns c) (attempted ++ [c])
      else (conns, attempted)

/-- Run the broadcast send loop over a connection list. -/
def broadcastSend (ok : Nat → Bool) (conns : List Nat) : List Nat × List Nat :=
  sendLoopFrom ok conns.length 0 conns []

/-- server.ConnectionManager.broadcast_typing, lines 90-102. -/
def broadcast_typing (ok : Nat → Bool) (conns : List Nat) : List Nat × List Nat :=
  broadcastSend ok conns

/-- Substring test on character lists (Python `in` on strings). -/
def startsWithL : List Char → List Char → Bool
  | _, [] => true
  | [], _ :: _ => false
  | c :: cs, p :: ps => c = p && startsWithL cs ps

/-- Whether `pat` occurs inside `l`. -/
def hasSub : List Char → List Char → Bool
  | [], pat => pat.isEmpty
  | c :: rest, pat => startsWithL (c :: rest) pat || hasSub rest pat

/-- server.ConnectionManager.broadcast_log, lines 71-88: the verbosity filter
(messages starting with `2025-` or containing the delivered-marker are not
broadcast), then the same send loop. -/
def broadcast_log (ok : Nat → Bool) (conns : List Nat) (logMessage : String) :
    List Nat × List Nat :=
  if !(startsWithL logMessage.toList "2025-".toList) &&
      !(hasSub logMessage.toList "Response delivered to client_".toList) then
    broadcastSend ok conns
  else (conns, [])

/-- Looking an id up right after a dict assignment of that id yields the
assigned value. -/
theorem dictGet_dictSet (reg : List (String × Session)) (id : String) (v : Session) :
    dictGet (dictSet reg id v) id = some v := by
  induction reg with
  | nil => simp [dictSet, dictGet]
  | cons p rest ih =>
      obtain ⟨k, w⟩ := p
      by_cases hk : k = id
      · simp [dictSet, dictGet, hk]
      · simp [dictSet, dictGet, hk, ih]

/-- Collecting the text fields of documents that all carry one succeeds with
exactly those texts. -/
theorem collectTexts_map_some (ts : List String) :
    collectTexts (ts.map some) = Except.ok ts := by
  induction ts with
  | nil => rfl
  | cons t rest ih => simp [collectTexts, ih]

/-- Injecting the instruction adds exactly one occurrence of it. -/
theorem instrCount_inject (c : Content) :
    instrCount (injectInstr c) = instrCount c + 1 := rfl

/-- A message list with zero total instruction occurrences has none in any
member. -/
theorem totalInstr_zero_of (l : List Msg) (h : totalInstr l = 0) :
    ∀ m ∈ l, msgInstr m = 0 := by
  induction l with
  | nil => intro m hm; simp at hm
  | cons x rest ih =>
      intro m hm
      simp only [totalInstr, Nat.add_eq_zero] at h
      rcases List.mem_cons.mp hm with rfl | hm2
      · exact h.1
      · exact ih h.2 m hm2

/-- After the system_added flag is set, the prompt loop injects nothing:
instruction-free input yields instruction-free output. -/
theorem go_true_instrFree (msgs : List Msg) (h : ∀ m ∈ msgs, msgInstr m = 0) :
    totalInstr (promptGo msgs true) = 0 := by
  induction msgs with
  | nil => rfl
  | cons x rest ih =>
      have hx := h x (List.mem_cons_self x rest)
      have hrest : ∀ m ∈ rest, msgInstr m = 0 :=
        fun m hm => h m (List.mem_cons_of_mem x hm)
      cases x with
      | system c => simpa [promptGo] using ih hrest
      | human c => simp [promptGo, totalInstr, ih hrest]; exact hx
      | ai c tc => simp [promptGo, totalInstr, ih hrest]; exact hx
      | tool c => simp [promptGo, totalInstr, ih hrest]; exact hx

/-- The prompt loop never emits a system-role message. -/
theorem go_no_system (msgs : List Msg) :
    ∀ (b : Bool), ∀ m ∈ promptGo msgs b, m.isSystem = false := by
  induction msgs with
  | nil => intro b m hm; simp [promptGo] at hm
  | cons x rest ih =>
      intro b m hm
      cases x with
      | system c => exact ih b m (by simpa [promptGo] using hm)
      | human c =>
          cases b with
          | true =>
              rcases List.mem_cons.mp (by simpa [promptGo] using hm) with rfl | hm2
              · rfl
              · exact ih true m hm2
          | false =>
              rcases List.mem_cons.mp (by simpa [promptGo] using hm) with rfl | hm2
              · rfl
              · exact ih true m hm2
      | ai c tc =>
          rcases List.mem_cons.mp (by simpa [promptGo] using hm) with rfl | hm2
          · rfl
          · exact ih b m hm2
      | tool c =>
          rcases List.mem_cons.mp (by simpa [promptGo] using hm) with rfl | hm2
          · rfl
          · exact ih b m hm2

/-- Starting with the flag unset, the composed prompt carries the
instruction exactly once when the history has a user message and not at all
otherwise (instruction-free history). -/
theorem go_false_total (msgs : List Msg) (h : ∀ m ∈ msgs, msgInstr m = 0) :
    totalInstr (promptGo msgs false)
      = (if msgs.any Msg.isHuman then 1 else 0) := by
  induction msgs with
  | nil => rfl
  | cons x rest ih =>
      have hx := h x (List.mem_cons_self x rest)
      have hrest : ∀ m ∈ rest, msgInstr m = 0 :=
        fun m hm => h m (List.mem_cons_of_mem x hm)
      cases x with
      | system c => simpa [promptGo, Msg.isSystem, Msg.isHuman] using ih hrest
      | human c =>
          have h0 : instrCount c = 0 := hx
          simp [promptGo, totalInstr, Msg.isHuman, msgInstr, Msg.content,
            instrCount_inject, h0, go_true_instrFree rest hrest]
      | ai c tc =>
          simp only [promptGo, totalInstr, ih hrest, List.any_cons, Msg.isHuman]
          simpa using hx
      | tool c =>
          simp only [promptGo, totalInstr, ih hrest, List.any_cons, Msg.isHuman]
          simpa using hx

/-- An empty prompt-loop output means the history had no user message. -/
theorem go_nil_no_human (msgs : List Msg) (b : Bool)
    (h : promptGo msgs b = []) : msgs.any Msg.isHuman = false := by
  induction msgs generalizing b with
  | nil => rfl
  | cons x rest ih =>
      cases x with
      | system c =>
          simp only [promptGo] at h
          simpa [Msg.isHuman] using ih b h
      | human c => cases b <;> simp [promptGo] at h
      | ai c tc => simp [promptGo] at h
      | tool c => simp [promptGo] at h

/-- Any message of the composed prompt that contains the instruction is the
first user-role message of the prompt and contains it exactly once. -/
theorem go_false_first (msgs : List Msg) (h : ∀ m ∈ msgs, msgInstr m = 0) :
    ∀ m ∈ promptGo msgs false, 0 < msgInstr m →
      (promptGo msgs false).find? Msg.isHuman = some m ∧ msgInstr m = 1 := by
  induction msgs with
  | nil => intro m hm; simp [promptGo] at hm
  | cons x rest ih =>
      have hx := h x (List.mem_cons_self x rest)
      have hrest : ∀ m ∈ rest, msgInstr m = 0 :=
        fun m hm => h m (List.mem_cons_of_mem x hm)
      intro m hm hpos
      cases x with
      | system c =>
          simp only [promptGo] at hm ⊢
          exact ih hrest m hm hpos
      | human c =>
          have h0 : instrCount c = 0 := hx
          simp only [promptGo, if_neg Bool.false_ne_true, Bool.false_eq_true,
            ite_false] at hm ⊢
          rcases List.mem_cons.mp hm with rfl | hm2
          · constructor
            · simp [List.find?_cons, Msg.isHuman]
            · simp [msgInstr, Msg.content, instrCount_inject, h0]
          · have := totalInstr_zero_of _ (go_true_instrFree rest hrest) m hm2
            omega
      | ai c tc =>
          simp only [promptGo] at hm ⊢
          rcases List.mem_cons.mp hm with rfl | hm2
          · have : msgInstr (Msg.ai c tc) = 0 := hx
            omega
          · have hres := ih hrest m hm2 hpos
            refine ⟨?_, hres.2⟩
            rw [List.find?_cons_of_neg _ (by simp [Msg.isHuman])]
            exact hres.1
      | tool c =>
          simp only [promptGo] at hm ⊢
          rcases List.mem_cons.mp hm with rfl | hm2
          · have : msgInstr (Msg.tool c) = 0 := hx
            omega
          · have hres := ih hrest m hm2 hpos
            refine ⟨?_, hres.2⟩
            rw [List.find?_cons_of_neg _ (by simp [Msg.isHuman])]
            exact hres.1

/-- composePrompt on a history whose head is a user message injects into
that head and flips the flag for the rest. -/
theorem composePrompt_cons_human (c : Content) (rest : List Msg) :
    composePrompt (Msg.human c :: rest)
      = Msg.human (injectInstr c) :: promptGo rest true := rfl

/-- C2: for every (instruction-free) session history, the composed prompt
contains no system-role message, carries the system instruction at most
once, any message carrying it is the first user-role message of the prompt
and carries it exactly once, and when the history contains a user message
the instruction occurs exactly once — independent of the number of turns. -/
theorem prompt_instruction_once (msgs : List Msg)
    (h : ∀ m ∈ msgs, msgInstr m = 0) :
    (∀ m ∈ composePrompt msgs, m.isSystem = false)
    ∧ totalInstr (composePrompt msgs) ≤ 1
    ∧ (∀ m ∈ composePrompt msgs, 0 < msgInstr m →
        (composePrompt msgs).find? Msg.isHuman = some m ∧ msgInstr m = 1)
    ∧ (msgs.any Msg.isHuman = true → totalInstr (composePrompt msgs) = 1) := by
  cases hgo : promptGo msgs false with
  | nil =>
      have hc : composePrompt msgs = [Msg.human (injectInstr [Tok.txt "Hello"])] := by
        unfold composePrompt
        rw [hgo]
      refine ⟨?_, ?_, ?_, ?_⟩
      · intro m hm
        rw [hc] at hm
        rcases List.mem_cons.mp hm with rfl | hm2
        · rfl
        · simp at hm2
      · rw [hc]; rfl
      · intro m hm hpos
        rw [hc] at hm ⊢
        rcases List.mem_cons.mp hm with rfl | hm2
        · exact ⟨by simp [List.find?_cons, Msg.isHuman], rfl⟩
        · simp at hm2
      · intro hh
        rw [go_nil_no_human msgs false hgo] at hh
        simp at hh
  | cons hd tl =>
      have hc : composePrompt msgs = promptGo msgs false := by
        unfold composePrompt
        rw [hgo]
      rw [hc]
      refine ⟨go_no_system msgs false, ?_, go_false_first msgs h, ?_⟩
      · rw [go_false_total msgs h]
        split <;> omega
      · intro hh
        rw [go_false_total msgs h, hh]
        rfl

/-- C2 witness: a one-turn history consisting of one user message. -/
theorem prompt_instruction_once_witness :
    (∀ m ∈ [Msg.human [Tok.txt "hi"]], msgInstr m = 0)
    ∧ ((∀ m ∈ composePrompt [Msg.human [Tok.txt "hi"]], m.isSystem = false)
      ∧ totalInstr (composePrompt [Msg.human [Tok.txt "hi"]]) ≤ 1
      ∧ (∀ m ∈ composePrompt [Msg.human [Tok.txt "hi"]], 0 < msgInstr m →
          (composePrompt [Msg.human [Tok.txt "hi"]]).find? Msg.isHuman = some m
          ∧ msgInstr m = 1)
      ∧ ([Msg.human [Tok.txt "hi"]].any Msg.isHuman = true →
          totalInstr (composePrompt [Msg.human [Tok.txt "hi"]]) = 1)) :=
  ⟨by decide, prompt_instruction_once [Msg.human [Tok.txt "hi"]] (by decide)⟩

/-- The stream loop of send_message only ever appends to the history it was
given. -/
theorem processEvents_prefix (events : List StreamEvent) :
    ∀ (h : List Msg) (r : String), ∃ t, (processEvents h r events).2 = h ++ t := by
  induction events with
  | nil => intro h r; exact ⟨[], by simp [processEvents]⟩
  | cons e rest ih =>
      intro h r
      cases e with
      | agent m =>
          by_cases htc : toolCallsOf m = []
          · obtain ⟨t, ht⟩ := ih (h ++ [m]) (contentText m.content)
            exact ⟨[m] ++ t, by simp [processEvents, htc, ht]⟩
          · obtain ⟨t, ht⟩ := ih h r
            exact ⟨t, by simp [processEvents, htc, ht]⟩
      | tools ms =>
          obtain ⟨t, ht⟩ := ih (h ++ ms) r
          exact ⟨ms ++ t, by simp [processEvents, ht]⟩

/-- For non-blank input the history returned by send_message is the stream
result over the old history plus the new user message, whether or not the
run raised. -/
theorem send_message_snd (mgr : ConvMgr) (input : String)
    (events : List StreamEvent) (fault : Option String)
    (hnb : isBlank input = false) :
    (send_message mgr input events fault).2
      = ConvMgr.mk mgr.threadId
          (processEvents (mgr.messages ++ [Msg.human [Tok.txt input]]) "" events).2 := by
  simp only [send_message, hnb]
  cases fault <;> simp

/-- C3: for a non-blank turn, send_message only appends to the history —
the old history followed by the new user message is a prefix of the new
history — so the length strictly increases; clear_history resets the
history to empty; and on the turn after a clear the new user message is the
first message of the history and the composed prompt injects the system
instruction into exactly that first message. -/
theorem history_append_only (mgr : ConvMgr) (input : String)
    (events : List StreamEvent) (fault : Option String)
    (hnb : isBlank input = false) :
    (∃ t, (send_message mgr input events fault).2.messages
        = mgr.messages ++ (Msg.human [Tok.txt input] :: t))
    ∧ mgr.messages.length < (send_message mgr input events fault).2.messages.length
    ∧ (clear_history mgr).messages = []
    ∧ (∃ t, (send_message (clear_history mgr) input events fault).2.messages
        = Msg.human [Tok.txt input] :: t)
    ∧ (composePrompt (send_message (clear_history mgr) input events fault).2.messages).head?
        = some (Msg.human (injectInstr [Tok.txt input])) := by
  have h2 := send_message_snd mgr input events fault hnb
  obtain ⟨t, ht⟩ :=
    processEvents_prefix events (mgr.messages ++ [Msg.human [Tok.txt input]]) ""
  have h3 := send_message_snd (clear_history mgr) input events fault hnb
  obtain ⟨t2, ht2⟩ :=
    processEvents_prefix events
      ((clear_history mgr).messages ++ [Msg.human [Tok.txt input]]) ""
  have hmsgs : (send_message (clear_history mgr) input events fault).2.messages
      = Msg.human [Tok.txt input] :: t2 := by
    rw [h3]
    simpa [clear_history] using ht2
  refine ⟨⟨t, ?_⟩, ?_, rfl, ⟨t2, hmsgs⟩, ?_⟩
  · rw [h2]
    simpa [List.append_assoc] using ht
  · rw [h2]
    simp only [ht, List.append_assoc, List.length_append, List.singleton_append,
      List.length_cons]
    omega
  · rw [hmsgs, composePrompt_cons_human]
    rfl

/-- C3 witness: one non-blank turn on a fresh manager. -/
theorem history_append_only_witness :
    isBlank "hi" = false
    ∧ ((∃ t, (send_message (ConvMgr.mk "default" []) "hi" [] none).2.messages
          = (ConvMgr.mk "default" []).messages ++ (Msg.human [Tok.txt "hi"] :: t))
      ∧ (ConvMgr.mk "default" []).messages.length
          < (send_message (ConvMgr.mk "default" []) "hi" [] none).2.messages.length
      ∧ (clear_history (ConvMgr.mk "default" [])).messages = []
      ∧ (∃ t, (send_message (clear_history (ConvMgr.mk "default" [])) "hi" [] none).2.messages
          = Msg.human [Tok.txt "hi"] :: t)
      ∧ (composePrompt
            (send_message (clear_history (ConvMgr.mk "default" [])) "hi" [] none).2.messages).head?
          = some (Msg.human (injectInstr [Tok.txt "hi"]))) :=
  ⟨by decide, history_append_only (ConvMgr.mk "default" []) "hi" [] none (by decide)⟩

/-- C1: the claim says the agent loop terminates after a fixed cap of
model-invocation/tool-dispatch cycles (e.g. 8), transitioning to ERROR with
a fallback message.  The code has no such cap: with a model client whose
every response requests a tool call, `should_continue` routes to the tools
node on every cycle and the graph of build_graph never terminates on its own
— for every fuel (number of agent-node invocations allowed, in particular
any value larger than 8) the run is still in progress, with no ERROR
transition and no fallback message.  Termination in deployment rests solely
on the langgraph runtime recursion limit, which is outside this repository. -/
theorem no_internal_cycle_cap :
    ∀ (fuel : Nat) (msgs : List Msg),
      runGraph alwaysToolOracle stubToolExec fuel msgs = none := by
  intro fuel
  induction fuel with
  | zero => intro msgs; rfl
  | succ n ih =>
      intro msgs
      have h1 : should_continue (msgs ++ agent_node (alwaysToolOracle msgs)) = "tools" := by
        simp [should_continue, agent_node, alwaysToolOracle, toolCallsOf]
      simp [runGraph, h1, ih]

/-- C4: a model-client exception on any cycle is caught by agent_node and
converted into a single assistant-role message describing the failure, with
no tool calls; appended to any state, it sends should_continue to END, so
the loop terminates rather than retrying or crashing (the node consumes
exactly one invocation result and produces exactly one message). -/
theorem model_failure_terminal (e : String) (msgs : List Msg) :
    agent_node (Except.error e)
      = [Msg.ai [Tok.txt ("I encountered an error: " ++ e)] []]
    ∧ (∀ m ∈ agent_node (Except.error e), m.isAssistant = true ∧ toolCallsOf m = [])
    ∧ (agent_node (Except.error e)).length = 1
    ∧ should_continue (msgs ++ agent_node (Except.error e)) = "__end__" := by
  refine ⟨rfl, ?_, rfl, ?_⟩
  · intro m hm
    simp only [agent_node, List.mem_singleton] at hm
    subst hm
    exact ⟨rfl, rfl⟩
  · simp [agent_node, should_continue, toolCallsOf]

/-- C5: extract_text_from_response returns string content unchanged; on a
list it joins the text parts (dict text values and bare strings, in order,
other parts ignored) with a single space, falling back to the str()
representation when no text parts exist; in particular
[dict text a, dict text b] gives "a b" and "plain" gives "plain". -/
theorem extract_text_spec :
    (∀ s : String, extract_text_from_response (RContent.str s) = s)
    ∧ extract_text_from_response (RContent.list [RItem.dictT "a", RItem.dictT "b"]) = "a b"
    ∧ extract_text_from_response (RContent.str "plain") = "plain"
    ∧ (∀ items : List RItem, textParts items ≠ [] →
        extract_text_from_response (RContent.list items)
          = String.intercalate " " (textParts items))
    ∧ (∀ items : List RItem, textParts items = [] →
        extract_text_from_response (RContent.list items) = pyStr (RContent.list items))
    ∧ (∀ (r : String) (items : List RItem),
        textParts (RItem.dictOther r :: items) = textParts items)
    ∧ (∀ (r : String) (items : List RItem),
        textParts (RItem.other r :: items) = textParts items) := by
  refine ⟨fun s => rfl, by decide, rfl, ?_, ?_, ?_, ?_⟩
  · intro items h
    simp only [extract_text_from_response]
    rw [if_neg h]
  · intro items h
    simp only [extract_text_from_response]
    rw [if_pos h]
  · intro r items; simp [textParts]
  · intro r items; simp [textParts]

/-- C5 witness: a one-item list with a text part evaluates as the theorem
states. -/
theorem extract_text_spec_witness :
    textParts [RItem.dictT "x"] ≠ []
    ∧ extract_text_from_response (RContent.list [RItem.dictT "x"])
        = String.intercalate " " (textParts [RItem.dictT "x"]) :=
  ⟨by decide, extract_text_spec.2.2.2.1 [RItem.dictT "x"] (by decide)⟩

/-- C6: get_weather always returns exactly one of the four result strings —
the missing-key literal, the formatted success report, the upstream-error
string, or the exception string — and, being a total function of its
oracles, never raises; the London scenario with description "clear sky",
temp 20.5, humidity 60 and wind 3.2 produces the exact report containing
those values. -/
theorem get_weather_cases :
    (∀ (apiKey : Option String) (city : String)
        (net : Except String (Nat × Except String WJson)),
      get_weather apiKey city net = "Error: OpenWeatherMap API key not found."
      ∨ (∃ d t h w, get_weather apiKey city net = weatherReport city d t h w)
      ∨ (∃ m, get_weather apiKey city net = "Error fetching weather: " ++ m)
      ∨ (∃ e, get_weather apiKey city net = "Exception occurred: " ++ e))
    ∧ get_weather (some "key") "London"
        (Except.ok (200, Except.ok (WJson.mk (some [some "clear sky"])
          (some (WMain.mk (some "20.5") (some "60"))) (some (some "3.2")) none)))
      = "The weather in London is currently clear sky with a temperature of " ++
        "20.5°C, humidity of 60%, and wind speed of 3.2 m/s." := by
  constructor
  · intro apiKey city net
    by_cases hk : apiKey.getD "" = ""
    · left
      simp [get_weather, hk]
    · right
      rcases net with e | ⟨st, parsed⟩
      · right; right
        exact ⟨e, by simp [get_weather, hk]⟩
      · rcases parsed with e | data
        · right; right
          exact ⟨e, by simp [get_weather, hk]⟩
        · by_cases hst : st = 200
          · cases hw : weatherFields data with
            | error e =>
                right; right
                exact ⟨e, by simp [get_weather, hk, hst, hw]⟩
            | ok q =>
                obtain ⟨d, t, h, w⟩ := q
                left
                exact ⟨d, t, h, w, by simp [get_weather, hk, hst, hw]⟩
          · right; left
            exact ⟨data.message.getD "Unknown error", by simp [get_weather, hk, hst]⟩
  · rfl

/-- C8: the claim says a failed delivery drops the stale connection and
delivery is still attempted to every other connection.  The code removes the
failed connection from `active_connections` while iterating over it, so the
connection that shifts into the failed one's position is never visited: with
connections [0, 1] where sending to 0 raises, both broadcast_typing and a
broadcast_log that passes the verbosity filter attempt delivery only to 0
(the attempted list is [0]), remove 0, and never attempt connection 1. -/
theorem broadcast_skips_next_after_failure :
    broadcast_typing (fun c => c != 0) [0, 1] = ([1], [0])
    ∧ broadcast_log (fun c => c != 0) [0, 1] "sample log line" = ([1], [0])
    ∧ (1 : Nat) ∉ [0] := by
  refine ⟨rfl, by decide, by decide⟩

/-- C9 counterexample: the claim says a second first-contact (connect or
getOrCreate) with an id that already has a session preserves the existing
session and its history.  connect overwrites: on a registry where "alice"
already has a one-message history, connect installs a fresh empty session,
so the stored session is no longer the existing one. -/
theorem connect_overwrites_existing_session :
    dictGet (connect [("alice", Session.mk "alice" [Msg.human [Tok.txt "hi"]])] "alice") "alice"
      = some (Session.mk "alice" [])
    ∧ Session.mk "alice" ([] : List Msg)
        ≠ Session.mk "alice" [Msg.human [Tok.txt "hi"]] := by
  exact ⟨rfl, by decide⟩

/-- C9 amended: the getOrCreate path of the message handler is idempotent —
an id that already has a session gets exactly that session back with the
registry unchanged, preserving its history — while connect always installs a
fresh empty session for the id, replacing any existing one. -/
theorem get_or_create_idempotent :
    (∀ (reg : List (String × Session)) (id : String) (s : Session),
        dictGet reg id = some s → getOrCreate reg id = (s, reg))
    ∧ (∀ (reg : List (String × Session)) (id : String),
        dictGet (connect reg id) id = some (freshSession id)) := by
  constructor
  · intro reg id s h
    simp [getOrCreate, h]
  · intro reg id
    exact dictGet_dictSet reg id (freshSession id)

/-- C9 witness: a registry already holding a session for "a" returns that
session unchanged from getOrCreate. -/
theorem get_or_create_idempotent_witness :
    dictGet [("a", Session.mk "a" [])] "a" = some (Session.mk "a" [])
    ∧ getOrCreate [("a", Session.mk "a" [])] "a"
        = (Session.mk "a" [], [("a", Session.mk "a" [])]) :=
  ⟨by rfl, get_or_create_idempotent.1 [("a", Session.mk "a" [])] "a" (Session.mk "a" []) (by rfl)⟩

/-- C7 counterexample: with the backend producing one passage whose text is
empty (a non-empty result set, no fault), the claim requires the
concatenation of the passages (the empty string), but the code returns the
no-information literal, because it tests the joined string for falsiness
rather than the result set for emptiness. -/
theorem retrieve_knowledge_empty_passage_cex :
    retrieve_knowledge true (Except.ok ()) (Except.ok [some ""]) = noInfoMsg
    ∧ String.intercalate " " [""] = ""
    ∧ noInfoMsg ≠ String.intercalate " " [""] := by
  exact ⟨rfl, rfl, by decide⟩

/-- C7 amended: retrieve_knowledge returns the error string on any fault of
the retrieval backend (never raising, being total); it returns the
no-information literal whenever the joined passages are the empty string —
which covers an unconfigured collection, an empty result set, and passages
that are all empty — and otherwise returns the passages joined with single
spaces. -/
theorem retrieve_knowledge_cases :
    (∀ (embed : Except String Unit) (docs : Except String (List (Option String))),
        retrieve_knowledge false embed docs = noInfoMsg)
    ∧ (∀ (e : String) (docs : Except String (List (Option String))),
        retrieve_knowledge true (Except.error e) docs
          = "Error retrieving knowledge: " ++ e)
    ∧ (∀ e : String, retrieve_knowledge true (Except.ok ()) (Except.error e)
          = "Error retrieving knowledge: " ++ e)
    ∧ (∀ ts : List String,
        retrieve_knowledge true (Except.ok ()) (Except.ok (ts.map some))
          = if String.intercalate " " ts = "" then noInfoMsg
            else String.intercalate " " ts)
    ∧ retrieve_knowledge true (Except.ok ()) (Except.ok []) = noInfoMsg := by
  refine ⟨fun embed docs => rfl, fun e docs => rfl, fun e => rfl, ?_, rfl⟩
  intro ts
  simp [retrieve_knowledge, get_query_results, collectTexts_map_some]

/-- C10: blank (empty or whitespace-only) input makes send_message and
process_query return the fixed validity prompt; the result is the same for
every stream oracle and fault — the graph and model are never consulted —
and the conversation history is returned unchanged. -/
theorem blank_input_no_model_call (mgr : ConvMgr) (input : String)
    (events : List StreamEvent) (fault : Option String)
    (hb : isBlank input = true) :
    send_message mgr input events fault = (invalidInputMsg, mgr)
    ∧ process_query input events fault = invalidInputMsg := by
  constructor <;> simp [send_message, process_query, hb]

/-- C10 witness: whitespace-only input on a fresh manager. -/
theorem blank_input_no_model_call_witness :
    isBlank "   " = true
    ∧ send_message (ConvMgr.mk "default" []) "   " [] none
        = (invalidInputMsg, ConvMgr.mk "default" [])
    ∧ process_query "   " [] none = invalidInputMsg := by
  refine ⟨by rfl, ?_⟩
  exact blank_input_no_model_call (ConvMgr.mk "default" []) "   " [] none (by rfl)

end AgentSpec
